import Mathlib

/-!
Verification of the appointment-booking backend (`app.py`).

The development shallowly embeds the meaningful logic of the source:
the priority classifier `calculate_priority`, the notification sender
`send_email`, the appointment store (a list of appointment records,
with Mongo's `insert_one` / `find_one` / `update_one` modelled as list
operations), and the three workflow handlers `book_appointment`,
`approve_appointment`, `reject_appointment`, plus the listing handler
`get_appointments`.

Modelling conventions:
* Timestamps (`datetime.utcnow().isoformat()`) are modelled as `Nat`
  values passed in as a `now` parameter; ISO-8601 strings compare
  chronologically, so the store-level descending sort on `created_at`
  is a descending sort on these numbers.
* The Mongo `ObjectId` is modelled as an opaque `String` identifier;
  `insert_one`'s id assignment is a `newId : String` parameter.
* The SMTP relay is modelled as an oracle `Relay` that either accepts
  a message or fails with an error string; `send_email`'s `try/except`
  is the `match` on that result.
* A Python exception escaping to a handler's outer `except` block is
  modelled by the handler returning the 500-style response built from
  the exception text.  Accessing a field of `None` (the unguarded
  `find_one` result) raises `TypeError`; its text is modelled by the
  constant `noneTypeError`.
-/

/-- An appointment record, as stored in `patients_appointments`.
Fields mirror the document built in `book_appointment` (app.py lines
142-152) together with `_id` and the fields added by the review
handlers (`approved_at`, `rejected_at`). -/
structure Appointment where
  id : String
  patient_name : String
  patient_email : String
  issues : String
  preferred_time : String
  priority : String
  status : String
  created_at : Nat
  doctor_approved : Bool
  google_meet_link : Option String
  approved_at : Option Nat
  rejected_at : Option Nat
deriving DecidableEq, Repr

/-- The appointment store: the `patients_appointments` collection in
insertion order. -/
abbrev Store := List Appointment

/-- Whether `needle` is a leading block of `hay` (helper for Python's
substring test `needle in hay`). -/
def listHasPre : List Char → List Char → Bool
  | [], _ => true
  | _ :: _, [] => false
  | a :: n, b :: h => a == b && listHasPre n h

/-- Python's substring containment `needle in hay` on character lists:
`needle` occurs contiguously somewhere in `hay`. -/
def listHasSub (needle : List Char) : List Char → Bool
  | [] => listHasPre needle []
  | b :: h => listHasPre needle (b :: h) || listHasSub needle h

/-- Python's `needle in hay` on strings. -/
def strContains (needle hay : String) : Bool :=
  listHasSub needle.toList hay.toList

/-- Python's `str.lower()`: lowercase every character (ASCII case
folding, as `Char.toLower` performs; written as a map over the
character list so that it is kernel-computable). -/
def str_lower (s : String) : String :=
  String.mk (s.data.map Char.toLower)

/-- The `urgent_keywords` list of `calculate_priority` (app.py lines 37-45). -/
def urgent_keywords : List String :=
  ["emergency", "severe", "acute", "urgent", "critical", "bleeding", "chest pain"]

/-- The `high_keywords` list of `calculate_priority` (app.py line 46). -/
def high_keywords : List String :=
  ["pain", "fever", "infection", "injury"]

/-- The classifier `calculate_priority` (app.py lines 35-55): lowercase the issue
text, return "High" if any urgent keyword occurs as a substring, else
"Medium" if any high keyword occurs, else "Low". -/
def calculate_priority (issues : String) : String :=
  let issues_lower := str_lower issues
  if urgent_keywords.any (fun keyword => strContains keyword issues_lower) then
    "High"
  else if high_keywords.any (fun keyword => strContains keyword issues_lower) then
    "Medium"
  else
    "Low"

/-- The external mail relay: given recipient, subject and body it
either delivers (`Except.ok`) or fails with an error message
(`Except.error`), covering connection, auth and send errors raised
inside the `try` block of `send_email`. -/
def Relay := String → String → String → Except String Unit

/-- The sender `send_email` (app.py lines 58-77): attempt delivery through the
relay; any raised error is caught and converted to `false`. -/
def send_email (relay : Relay) (to_email subject body : String) : Bool :=
  match relay to_email subject body with
  | Except.ok _ => true
  | Except.error _ => false

/-- Result of the Calendly stub. -/
structure CalendlyResult where
  success : Bool
  event_id : String
deriving DecidableEq, Repr

/-- The stub `create_calendly_booking` (app.py lines 80-105): a stub that
always returns success with a fixed event id. -/
def create_calendly_booking (_name _email _start_time : String) : CalendlyResult :=
  { success := true, event_id := "calendly_event_id" }

/-- The JSON body (plus HTTP status) returned by the API handlers. -/
structure ApiResponse where
  status : Nat
  success : Bool
  message : String
  appointment_id : Option String
deriving DecidableEq, Repr

/-- The parsed JSON body of a booking request: `data.get(key)` yields
`none` when the key is missing. -/
structure BookingData where
  patient_name : Option String
  patient_email : Option String
  issues : Option String
  preferred_time : Option String
deriving DecidableEq, Repr

/-- Python truthiness of a `data.get` result: `None` and the empty
string are falsy. -/
def truthy : Option String → Bool
  | none => false
  | some s => !s.isEmpty

/-- The `all([patient_name, patient_email, issues, preferred_time])`
check of app.py line 132. -/
def allFieldsPresent (data : BookingData) : Bool :=
  truthy data.patient_name && truthy data.patient_email &&
    truthy data.issues && truthy data.preferred_time

/-- Mongo `find_one({"_id": id})`: the first stored record with the
given identifier. -/
def find_one (store : Store) (id : String) : Option Appointment :=
  List.find? (fun a => a.id == id) store

/-- Mongo `update_one({"_id": id}, {"$set": ...})`: apply `f` to the
first record with the given identifier, if any. -/
def update_one (store : Store) (id : String) (f : Appointment → Appointment) : Store :=
  match store with
  | [] => []
  | a :: rest =>
    if a.id == id then f a :: rest else a :: update_one rest id f

/-- The `TypeError` text raised when the unguarded `find_one` result is
`None` and a field of it is accessed (app.py lines 256-277, 303-325). -/
def noneTypeError : String := "NoneType object is not subscriptable"

/-- The handler `book_appointment` (app.py lines 120-211): validate the four
required fields, classify the issue text, insert the pending record,
invoke the Calendly stub, send best-effort emails to patient and
doctor, and return success with the assigned identifier. -/
def book_appointment (data : BookingData) (newId : String) (now : Nat)
    (relay : Relay) (store : Store) : ApiResponse × Store :=
  if allFieldsPresent data then
    let patient_name := data.patient_name.getD ""
    let patient_email := data.patient_email.getD ""
    let issues := data.issues.getD ""
    let preferred_time := data.preferred_time.getD ""
    let priority := calculate_priority issues
    let appointment : Appointment :=
      { id := newId
        patient_name := patient_name
        patient_email := patient_email
        issues := issues
        preferred_time := preferred_time
        priority := priority
        status := "pending"
        created_at := now
        doctor_approved := false
        google_meet_link := none
        approved_at := none
        rejected_at := none }
    let store' := store ++ [appointment]
    let _calendly := create_calendly_booking patient_name patient_email preferred_time
    let _mail1 := send_email relay patient_email "Appointment Booking Received"
      ("Dear " ++ patient_name ++ ", priority " ++ priority ++ ", time " ++
        preferred_time ++ ", issues " ++ issues)
    let _mail2 := send_email relay "DOCTOR_EMAIL"
      ("New Appointment - Priority: " ++ priority)
      ("Patient " ++ patient_name ++ " " ++ patient_email ++ ", issues " ++
        issues ++ ", time " ++ preferred_time)
    ({ status := 200
       success := true
       message := "Form submitted successfully! Email will be sent shortly"
       appointment_id := some newId }, store')
  else
    ({ status := 400
       success := false
       message := "All fields are required"
       appointment_id := none }, store)

/-- The `$set` document of the approve update (app.py lines 243-253). -/
def approveSet (meet_link : String) (now : Nat) (a : Appointment) : Appointment :=
  { a with
    status := "approved"
    doctor_approved := true
    google_meet_link := some meet_link
    approved_at := some now }

/-- The handler `approve_appointment` (app.py lines 233-281): build the meeting
link from the first 10 characters of the identifier, set the approved
fields on the record, re-fetch it, email the patient; an identifier
matching no record makes the re-fetch return `None` and the email
construction raise, answered with the generic 500 response. -/
def approve_appointment (store : Store) (appointment_id : String) (now : Nat)
    (relay : Relay) : ApiResponse × Store :=
  let meet_link := "https://meet.google.com/" ++ appointment_id.take 10
  let store' := update_one store appointment_id (approveSet meet_link now)
  match find_one store' appointment_id with
  | none =>
    ({ status := 500, success := false, message := noneTypeError,
       appointment_id := none }, store')
  | some appointment =>
    let _mail := send_email relay appointment.patient_email
      "Appointment Confirmed"
      ("Dear " ++ appointment.patient_name ++ ", time " ++
        appointment.preferred_time ++ ", link " ++ meet_link)
    ({ status := 200, success := true, message := "Appointment approved",
       appointment_id := none }, store')

/-- The `$set` document of the reject update (app.py lines 291-300);
`google_meet_link` is not touched. -/
def rejectSet (now : Nat) (a : Appointment) : Appointment :=
  { a with
    status := "rejected"
    doctor_approved := false
    rejected_at := some now }

/-- The handler `reject_appointment` (app.py lines 284-329): set the rejected
fields on the record, re-fetch it, email the patient a reschedule
link; same unguarded not-found path as approve. -/
def reject_appointment (store : Store) (appointment_id : String) (now : Nat)
    (relay : Relay) : ApiResponse × Store :=
  let store' := update_one store appointment_id (rejectSet now)
  match find_one store' appointment_id with
  | none =>
    ({ status := 500, success := false, message := noneTypeError,
       appointment_id := none }, store')
  | some appointment =>
    let _mail := send_email relay appointment.patient_email
      "Appointment Rescheduling Required"
      ("Dear " ++ appointment.patient_name ++ ", please reschedule")
    ({ status := 200, success := true, message := "Appointment rejected",
       appointment_id := none }, store')

/-- The `priority_order` rank of app.py line 225, with the
`.get(_, 3)` default for unrecognized priorities. -/
def rankOf (priority : String) : Nat :=
  if priority == "High" then 0
  else if priority == "Medium" then 1
  else if priority == "Low" then 2
  else 3

/-- Stable insertion step: place `a` before the first element `b` with
`le a b`. -/
def insertSorted (le : Appointment → Appointment → Bool) (a : Appointment) :
    List Appointment → List Appointment
  | [] => [a]
  | b :: l => if le a b then a :: b :: l else b :: insertSorted le a l

/-- Stable insertion sort (models both Mongo's `sort` and Python's
stable `list.sort`). -/
def insertionSort (le : Appointment → Appointment → Bool) :
    List Appointment → List Appointment
  | [] => []
  | a :: l => insertSorted le a (insertionSort le l)

/-- Comparison for the store-level `sort("created_at", -1)`:
`created_at` descending. -/
def createdDesc (a b : Appointment) : Bool :=
  b.created_at ≤ a.created_at

/-- Comparison for the dashboard sort
`key=lambda x: priority_order.get(x["priority"], 3)`. -/
def rankLe (a b : Appointment) : Bool :=
  rankOf a.priority ≤ rankOf b.priority

/-- The handler `get_appointments` (app.py lines 214-228): fetch all records
sorted by `created_at` descending, then stably re-sort by priority
rank ascending. -/
def get_appointments (store : Store) : List Appointment :=
  let appointments := insertionSort createdDesc store
  insertionSort rankLe appointments

/-- One observable mutation of the store: a booking request or a
review action on some identifier, at some time, with some relay. -/
inductive Step : Store → Store → Prop where
  | book : ∀ (s : Store) (data : BookingData) (newId : String) (now : Nat)
      (relay : Relay), Step s (book_appointment data newId now relay s).2
  | approve : ∀ (s : Store) (id : String) (now : Nat) (relay : Relay),
      Step s (approve_appointment s id now relay).2
  | reject : ∀ (s : Store) (id : String) (now : Nat) (relay : Relay),
      Step s (reject_appointment s id now relay).2

/-- Store states reachable from the empty collection by any sequence
of booking, approve and reject operations. -/
inductive Reachable : Store → Prop where
  | nil : Reachable []
  | step : ∀ {s s' : Store}, Reachable s → Step s s' → Reachable s'

/-! ## Concrete data used to exercise the model -/

/-- A relay that always delivers. -/
def okRelay : Relay := fun _ _ _ => Except.ok ()

/-- A relay that always fails (e.g. connection refused). -/
def failRelay : Relay := fun _ _ _ => Except.error "connection refused"

/-- A well-formed booking request. -/
def bookingAlice : BookingData :=
  { patient_name := some "Alice"
    patient_email := some "alice@x.org"
    issues := some "severe chest pain"
    preferred_time := some "10am" }

/-- A booking request with `patient_email` missing. -/
def bookingMissingEmail : BookingData :=
  { patient_name := some "Alice"
    patient_email := none
    issues := some "cough"
    preferred_time := some "10am" }

/-- A sample store-assigned identifier. -/
def demoId : String := "aaaaaaaaaaaa"

/-- The store after booking `bookingAlice` at time 0. -/
def storeBooked : Store := (book_appointment bookingAlice demoId 0 okRelay []).2

/-- The pending record held in `storeBooked`. -/
def aptPending : Appointment :=
  { id := demoId
    patient_name := "Alice"
    patient_email := "alice@x.org"
    issues := "severe chest pain"
    preferred_time := "10am"
    priority := "High"
    status := "pending"
    created_at := 0
    doctor_approved := false
    google_meet_link := none
    approved_at := none
    rejected_at := none }

/-- The store after approving the booked appointment at time 5. -/
def storeApproved : Store := (approve_appointment storeBooked demoId 5 okRelay).2

/-- The store after additionally rejecting the approved appointment at
time 7. -/
def storeApprovedRejected : Store :=
  (reject_appointment storeApproved demoId 7 okRelay).2

/-- The store after rejecting the booked appointment at time 5. -/
def storeRejected : Store := (reject_appointment storeBooked demoId 5 okRelay).2

/-- The store after re-approving the rejected appointment at time 9. -/
def storeReApproved : Store :=
  (approve_appointment storeRejected demoId 9 okRelay).2

/-- The record held in `storeApproved`. -/
def aptApproved : Appointment :=
  { aptPending with
    status := "approved"
    doctor_approved := true
    google_meet_link := some "https://meet.google.com/aaaaaaaaaa"
    approved_at := some 5 }

/-- The record held in `storeApprovedRejected`: rejected, but still
carrying the meeting link set by the earlier approval. -/
def aptApprovedRejected : Appointment :=
  { aptApproved with
    status := "rejected"
    doctor_approved := false
    rejected_at := some 7 }

/-- The record held in `storeRejected`. -/
def aptRejected : Appointment :=
  { aptPending with
    status := "rejected"
    doctor_approved := false
    rejected_at := some 5 }

/-- The record held in `storeReApproved`. -/
def aptReApproved : Appointment :=
  { aptRejected with
    status := "approved"
    doctor_approved := true
    google_meet_link := some "https://meet.google.com/aaaaaaaaaa"
    approved_at := some 9 }

/-! ## Substring containment and the priority classifier -/

/-- Spec-side substring containment: some contiguous run of `hay`
equals `needle` ("the text contains the keyword"). -/
def specContains (needle hay : String) : Prop :=
  ∃ l r, l ++ needle.toList ++ r = hay.toList

theorem listHasPre_iff (n h : List Char) :
    listHasPre n h = true ↔ ∃ r, n ++ r = h := by
  induction n generalizing h with
  | nil => simp [listHasPre]
  | cons a n ih =>
    cases h with
    | nil =>
      simp [listHasPre]
    | cons b t =>
      simp only [listHasPre, Bool.and_eq_true, beq_iff_eq, ih]
      constructor
      · rintro ⟨rfl, r, rfl⟩
        exact ⟨r, rfl⟩
      · rintro ⟨r, hr⟩
        obtain ⟨rfl, rfl⟩ : a = b ∧ n ++ r = t := by
          constructor <;> [exact (List.cons.injEq ..).mp hr |>.1;
            exact (List.cons.injEq ..).mp hr |>.2]
        exact ⟨rfl, r, rfl⟩

theorem listHasSub_iff (n h : List Char) :
    listHasSub n h = true ↔ ∃ l r, l ++ n ++ r = h := by
  induction h with
  | nil =>
    simp only [listHasSub, listHasPre_iff]
    constructor
    · rintro ⟨r, hr⟩
      exact ⟨[], r, by simpa using hr⟩
    · rintro ⟨l, r, hr⟩
      refine ⟨r, ?_⟩
      have hl : l = [] := by
        cases l with
        | nil => rfl
        | cons x xs => simp at hr
      subst hl; simpa using hr
  | cons b t ih =>
    simp only [listHasSub, Bool.or_eq_true, listHasPre_iff, ih]
    constructor
    · rintro (⟨r, hr⟩ | ⟨l, r, hr⟩)
      · exact ⟨[], r, by simpa using hr⟩
      · exact ⟨b :: l, r, by simp [hr]⟩
    · rintro ⟨l, r, hr⟩
      cases l with
      | nil =>
        exact Or.inl ⟨r, by simpa using hr⟩
      | cons x xs =>
        right
        refine ⟨xs, r, ?_⟩
        have := (List.cons.injEq ..).mp (by simpa using hr)
        simpa [List.append_assoc] using this.2

theorem strContains_iff (n h : String) :
    strContains n h = true ↔ specContains n h := by
  simp [strContains, specContains, listHasSub_iff]

instance (n h : String) : Decidable (specContains n h) :=
  decidable_of_iff (strContains n h = true) (strContains_iff n h)

/-- C1: the priority classifier is total and returns High if the
case-folded input contains an urgent keyword as a substring, else
Medium if it contains a high keyword, else Low; the High check
strictly precedes the Medium check, and the empty string yields Low. -/
theorem calculate_priority_spec (s : String) :
    calculate_priority s =
      (if ∃ k ∈ urgent_keywords, specContains k (str_lower s) then "High"
       else if ∃ k ∈ high_keywords, specContains k (str_lower s) then "Medium"
       else "Low")
    ∧ calculate_priority "" = "Low" := by
  constructor
  · have h1 : (urgent_keywords.any fun keyword => strContains keyword (str_lower s)) = true ↔
        ∃ k ∈ urgent_keywords, specContains k (str_lower s) := by
      simp [List.any_eq_true, strContains_iff]
    have h2 : (high_keywords.any fun keyword => strContains keyword (str_lower s)) = true ↔
        ∃ k ∈ high_keywords, specContains k (str_lower s) := by
      simp [List.any_eq_true, strContains_iff]
    by_cases hu : (urgent_keywords.any fun keyword => strContains keyword (str_lower s)) = true
    · rw [if_pos (h1.mp hu)]
      simp [calculate_priority, hu]
    · rw [if_neg (fun hc => hu (h1.mpr hc))]
      by_cases hh : (high_keywords.any fun keyword => strContains keyword (str_lower s)) = true
      · rw [if_pos (h2.mp hh)]
        simp [calculate_priority, hu, hh]
      · rw [if_neg (fun hc => hh (h2.mpr hc))]
        simp [calculate_priority, hu, hh]
  · decide

/-! ## Store lemmas -/

theorem find_one_append_of_some {s : Store} {id : String} {a : Appointment}
    (h : find_one s id = some a) (t : Store) : find_one (s ++ t) id = some a := by
  simp only [find_one] at h ⊢
  rw [List.find?_append, h]
  rfl

theorem update_one_not_found {s : Store} {id : String}
    (h : find_one s id = none) (f : Appointment → Appointment) :
    update_one s id f = s := by
  induction s with
  | nil => rfl
  | cons a rest ih =>
    simp only [find_one, List.find?] at h
    rcases hb : (a.id == id) with _ | _
    · simp only [update_one, hb, Bool.false_eq_true, if_false, List.cons.injEq, true_and]
      exact ih (by simpa [find_one, hb] using h)
    · rw [hb] at h
      simp at h

theorem find_one_update_self (s : Store) (id : String)
    (f : Appointment → Appointment) (hf : ∀ a, (f a).id = a.id) :
    find_one (update_one s id f) id = (find_one s id).map f := by
  induction s with
  | nil => rfl
  | cons a rest ih =>
    by_cases hid : (a.id == id) = true
    · have hfid : ((f a).id == id) = true := by rw [hf a]; exact hid
      simp [find_one, update_one, List.find?, hid, hfid]
    · simp only [update_one, hid, if_false, Bool.false_eq_true]
      simpa [find_one, List.find?, hid] using ih

theorem find_one_update_other (s : Store) (tid id : String) (hne : tid ≠ id)
    (f : Appointment → Appointment) (hf : ∀ a, (f a).id = a.id) :
    find_one (update_one s tid f) id = find_one s id := by
  induction s with
  | nil => rfl
  | cons a rest ih =>
    by_cases htid : (a.id == tid) = true
    · have haid : ¬ (a.id == id) = true := by
        simp only [beq_iff_eq] at htid ⊢
        rw [htid]; exact hne
      have hfid : ¬ ((f a).id == id) = true := by rw [hf a]; exact haid
      simp [find_one, update_one, List.find?, htid, haid, hfid]
    · simp only [update_one, htid, if_false, Bool.false_eq_true]
      by_cases haid : (a.id == id) = true
      · simp [find_one, List.find?, haid]
      · simpa [find_one, List.find?, haid] using ih

theorem mem_update_one {b : Appointment} {s : Store} {id : String}
    {f : Appointment → Appointment} (h : b ∈ update_one s id f) :
    b ∈ s ∨ ∃ a ∈ s, b = f a := by
  induction s with
  | nil => simp [update_one] at h
  | cons a rest ih =>
    by_cases hid : (a.id == id) = true
    · simp only [update_one, hid, if_true, List.mem_cons] at h
      rcases h with rfl | h
      · exact Or.inr ⟨a, List.mem_cons_self a rest, rfl⟩
      · exact Or.inl (List.mem_cons_of_mem a h)
    · simp only [update_one, hid, if_false, Bool.false_eq_true, List.mem_cons] at h
      rcases h with rfl | h
      · exact Or.inl (List.mem_cons_self b rest)
      · rcases ih h with h' | ⟨c, hc, rfl⟩
        · exact Or.inl (List.mem_cons_of_mem a h')
        · exact Or.inr ⟨c, List.mem_cons_of_mem a hc, rfl⟩

theorem approveSet_id (meet_link : String) (now : Nat) (a : Appointment) :
    (approveSet meet_link now a).id = a.id := rfl

theorem rejectSet_id (now : Nat) (a : Appointment) :
    (rejectSet now a).id = a.id := rfl

/-- Both branches of the approve handler return the updated store. -/
theorem approve_appointment_store (s : Store) (id : String) (now : Nat)
    (relay : Relay) :
    (approve_appointment s id now relay).2 =
      update_one s id (approveSet ("https://meet.google.com/" ++ id.take 10) now) := by
  simp only [approve_appointment]
  cases find_one (update_one s id
      (approveSet ("https://meet.google.com/" ++ id.take 10) now)) id <;> rfl

/-- Both branches of the reject handler return the updated store. -/
theorem reject_appointment_store (s : Store) (id : String) (now : Nat)
    (relay : Relay) :
    (reject_appointment s id now relay).2 = update_one s id (rejectSet now) := by
  simp only [reject_appointment]
  cases find_one (update_one s id (rejectSet now)) id <;> rfl

/-! ## Booking workflow (C2, C3) -/

/-- Unfolding of the validation-failure branch of the booking handler. -/
theorem book_missing_store_eq (data : BookingData) (newId : String)
    (now : Nat) (relay : Relay) (store : Store)
    (h : allFieldsPresent data = false) :
    book_appointment data newId now relay store =
      ({ status := 400, success := false, message := "All fields are required",
         appointment_id := none }, store) := by
  simp [book_appointment, h]

/-- C2: a booking request with any required field missing or empty is
rejected with HTTP 400 and body
`{"success": false, "message": "All fields are required"}`, and the
store is unchanged. -/
theorem book_appointment_missing_field (data : BookingData) (newId : String)
    (now : Nat) (relay : Relay) (store : Store)
    (h : allFieldsPresent data = false) :
    book_appointment data newId now relay store =
      ({ status := 400, success := false, message := "All fields are required",
         appointment_id := none }, store) :=
  book_missing_store_eq data newId now relay store h

theorem book_appointment_missing_field_witness :
    allFieldsPresent bookingMissingEmail = false ∧
      book_appointment bookingMissingEmail "id1" 0 okRelay [] =
        ({ status := 400, success := false, message := "All fields are required",
           appointment_id := none }, []) :=
  ⟨by decide, book_appointment_missing_field bookingMissingEmail "id1" 0 okRelay []
    (by decide)⟩

/-- Unfolding of the success branch of the booking handler. -/
theorem book_success_store_eq (data : BookingData) (newId : String)
    (now : Nat) (relay : Relay) (store : Store)
    (h : allFieldsPresent data = true) :
    book_appointment data newId now relay store =
      ({ status := 200, success := true,
         message := "Form submitted successfully! Email will be sent shortly",
         appointment_id := some newId },
       store ++
         [{ id := newId
            patient_name := data.patient_name.getD ""
            patient_email := data.patient_email.getD ""
            issues := data.issues.getD ""
            preferred_time := data.preferred_time.getD ""
            priority := calculate_priority (data.issues.getD "")
            status := "pending"
            created_at := now
            doctor_approved := false
            google_meet_link := none
            approved_at := none
            rejected_at := none }]) := by
  simp [book_appointment, h]

/-- C3: a booking request with all four fields non-empty appends
exactly one record, with status pending, doctor not approved, no
meeting link, `created_at` set at creation and priority given by the
classifier on the submitted issue text, and answers success carrying
the store-assigned identifier. -/
theorem book_appointment_success (data : BookingData) (newId : String)
    (now : Nat) (relay : Relay) (store : Store)
    (h : allFieldsPresent data = true) :
    book_appointment data newId now relay store =
      ({ status := 200, success := true,
         message := "Form submitted successfully! Email will be sent shortly",
         appointment_id := some newId },
       store ++
         [{ id := newId
            patient_name := data.patient_name.getD ""
            patient_email := data.patient_email.getD ""
            issues := data.issues.getD ""
            preferred_time := data.preferred_time.getD ""
            priority := calculate_priority (data.issues.getD "")
            status := "pending"
            created_at := now
            doctor_approved := false
            google_meet_link := none
            approved_at := none
            rejected_at := none }]) :=
  book_success_store_eq data newId now relay store h

theorem book_appointment_success_witness :
    allFieldsPresent bookingAlice = true ∧
      book_appointment bookingAlice demoId 0 okRelay [] =
        ({ status := 200, success := true,
           message := "Form submitted successfully! Email will be sent shortly",
           appointment_id := some demoId }, [aptPending]) := by
  refine ⟨by decide, ?_⟩
  have h := book_appointment_success bookingAlice demoId 0 okRelay [] (by decide)
  rw [h]
  decide

/-! ## String facts and the reachable-state link invariant -/

theorem pending_ne_approved : ("pending" : String) ≠ "approved" := by decide

theorem approved_ne_pending : ("approved" : String) ≠ "pending" := by decide

theorem rejected_ne_approved : ("rejected" : String) ≠ "approved" := by decide

theorem rejected_ne_pending : ("rejected" : String) ≠ "pending" := by decide

/-- In every reachable store state, an approved record carries a
non-null meeting link and a pending record a null one (shared
auxiliary invariant, established by induction over the step
relation). -/
theorem reachable_link_invariant : ∀ s : Store, Reachable s → ∀ apt ∈ s,
    (apt.status = "approved" → apt.google_meet_link ≠ none) ∧
      (apt.status = "pending" → apt.google_meet_link = none) := by
  intro s hs
  induction hs with
  | nil => intro apt hmem; simp at hmem
  | step hprev hstep ih =>
    cases hstep with
    | book data newId now relay =>
      intro apt hmem
      cases hv : allFieldsPresent data with
      | true =>
        rw [book_success_store_eq data newId now _ _ hv] at hmem
        rcases List.mem_append.mp hmem with h | h
        · exact ih apt h
        · rw [List.mem_singleton.mp h]
          exact ⟨fun habs => absurd habs pending_ne_approved, fun _ => rfl⟩
      | false =>
        rw [book_missing_store_eq data newId now _ _ hv] at hmem
        exact ih apt hmem
    | approve id now relay =>
      intro apt hmem
      rw [approve_appointment_store] at hmem
      rcases mem_update_one hmem with h | ⟨a, _, rfl⟩
      · exact ih apt h
      · exact ⟨fun _ => Option.some_ne_none _,
          fun habs => absurd habs approved_ne_pending⟩
    | reject id now relay =>
      intro apt hmem
      rw [reject_appointment_store] at hmem
      rcases mem_update_one hmem with h | ⟨a, _, rfl⟩
      · exact ih apt h
      · exact ⟨fun habs => absurd habs rejected_ne_approved,
          fun habs => absurd habs rejected_ne_pending⟩

/-! ## Review workflow on existing pending records (C4, C5) -/

/-- C4: approving an identifier that resolves to an existing pending
record updates that record to status approved, doctor approved,
`approved_at` set, and a meeting link computed deterministically from
the fixed 10-character prefix of the identifier. -/
theorem approve_pending_record (s : Store) (id : String) (now : Nat)
    (relay : Relay) (apt : Appointment)
    (h1 : find_one s id = some apt) (_h2 : apt.status = "pending") :
    find_one (approve_appointment s id now relay).2 id =
      some { apt with
             status := "approved"
             doctor_approved := true
             google_meet_link := some ("https://meet.google.com/" ++ id.take 10)
             approved_at := some now } := by
  rw [approve_appointment_store,
    find_one_update_self s id _ (approveSet_id ("https://meet.google.com/" ++ id.take 10) now),
    h1]
  rfl

theorem approve_pending_record_witness :
    find_one storeBooked demoId = some aptPending ∧
      aptPending.status = "pending" ∧
      find_one (approve_appointment storeBooked demoId 5 okRelay).2 demoId =
        some { aptPending with
               status := "approved"
               doctor_approved := true
               google_meet_link := some ("https://meet.google.com/" ++ demoId.take 10)
               approved_at := some 5 } :=
  ⟨by decide, by decide,
    approve_pending_record storeBooked demoId 5 okRelay aptPending (by decide)
      (by decide)⟩

/-- C5: rejecting an identifier that resolves to an existing pending
record of the running system updates it to status rejected, doctor not
approved, `rejected_at` set, and leaves the meeting link null. -/
theorem reject_pending_record (s : Store) (hr : Reachable s) (id : String)
    (now : Nat) (relay : Relay) (apt : Appointment)
    (h1 : find_one s id = some apt) (h2 : apt.status = "pending") :
    find_one (reject_appointment s id now relay).2 id =
      some { apt with
             status := "rejected"
             doctor_approved := false
             google_meet_link := none
             rejected_at := some now } := by
  have h3 : apt.google_meet_link = none :=
    (reachable_link_invariant s hr apt (List.mem_of_find?_eq_some h1)).2 h2
  rw [reject_appointment_store, find_one_update_self s id _ (rejectSet_id now), h1]
  simp [rejectSet, ← h3]

theorem reject_pending_record_witness :
    Reachable storeBooked ∧
      find_one storeBooked demoId = some aptPending ∧
      aptPending.status = "pending" ∧
      find_one (reject_appointment storeBooked demoId 5 okRelay).2 demoId =
        some { aptPending with
               status := "rejected"
               doctor_approved := false
               google_meet_link := none
               rejected_at := some 5 } :=
  have hr : Reachable storeBooked :=
    Reachable.step Reachable.nil (Step.book [] bookingAlice demoId 0 okRelay)
  ⟨hr, by decide, by decide,
    reject_pending_record storeBooked hr demoId 5 okRelay aptPending (by decide)
      (by decide)⟩

/-! ## Review workflow on unresolved identifiers (C10) -/

/-- C10: for an identifier resolving to no record, approve and reject
leave the store unchanged (the update matches zero documents), the
re-fetch yields a null record whose field access raises, and both
handlers answer the generic 500 failure carrying the exception text —
not a success acknowledgment. -/
theorem review_not_found (s : Store) (id : String) (now : Nat) (relay : Relay)
    (h : find_one s id = none) :
    approve_appointment s id now relay =
        ({ status := 500, success := false, message := noneTypeError,
           appointment_id := none }, s) ∧
      reject_appointment s id now relay =
        ({ status := 500, success := false, message := noneTypeError,
           appointment_id := none }, s) := by
  constructor
  · simp only [approve_appointment, update_one_not_found h, h]
  · simp only [reject_appointment, update_one_not_found h, h]

theorem review_not_found_witness :
    find_one storeBooked "unknown-id" = none ∧
      approve_appointment storeBooked "unknown-id" 5 okRelay =
          ({ status := 500, success := false, message := noneTypeError,
             appointment_id := none }, storeBooked) ∧
        reject_appointment storeBooked "unknown-id" 5 okRelay =
          ({ status := 500, success := false, message := noneTypeError,
             appointment_id := none }, storeBooked) :=
  ⟨by decide,
    (review_not_found storeBooked "unknown-id" 5 okRelay (by decide)).1,
    (review_not_found storeBooked "unknown-id" 5 okRelay (by decide)).2⟩

/-! ## Email totality and workflow independence (C9) -/

/-- C9: the email sender is total — every relay outcome is converted
to a boolean, a failing relay yielding `false` rather than an escaped
exception — and neither the booking workflow's nor the review
workflows' results (response and store) depend on what the relay does:
each handler returns the same value under any two relays, and a valid
booking still succeeds with the assigned identifier when both of its
emails fail. -/
theorem send_email_total_and_nonblocking (relay : Relay)
    (to_email subject body : String) (data : BookingData) (newId : String)
    (now : Nat) (store : Store) (id : String) (relay1 relay2 : Relay)
    (h : allFieldsPresent data = true) :
    (send_email relay to_email subject body = true ∨
        send_email relay to_email subject body = false) ∧
      send_email failRelay to_email subject body = false ∧
      book_appointment data newId now relay1 store =
        book_appointment data newId now relay2 store ∧
      approve_appointment store id now relay1 =
        approve_appointment store id now relay2 ∧
      reject_appointment store id now relay1 =
        reject_appointment store id now relay2 ∧
      (book_appointment data newId now failRelay store).1.success = true ∧
      (book_appointment data newId now failRelay store).1.appointment_id =
        some newId := by
  refine ⟨?_, rfl, rfl, ?_, ?_, ?_, ?_⟩
  · cases hr : relay to_email subject body with
    | ok u => exact Or.inl (by simp [send_email, hr])
    | error e => exact Or.inr (by simp [send_email, hr])
  · simp only [approve_appointment]
  · simp only [reject_appointment]
  · simp [book_appointment, h]
  · simp [book_appointment, h]

theorem send_email_total_and_nonblocking_witness :
    allFieldsPresent bookingAlice = true ∧
      ((send_email okRelay "to" "subject" "body" = true ∨
          send_email okRelay "to" "subject" "body" = false) ∧
        send_email failRelay "to" "subject" "body" = false ∧
        book_appointment bookingAlice demoId 0 okRelay [] =
          book_appointment bookingAlice demoId 0 failRelay [] ∧
        approve_appointment [] demoId 0 okRelay =
          approve_appointment [] demoId 0 failRelay ∧
        reject_appointment [] demoId 0 okRelay =
          reject_appointment [] demoId 0 failRelay ∧
        (book_appointment bookingAlice demoId 0 failRelay []).1.success = true ∧
        (book_appointment bookingAlice demoId 0 failRelay []).1.appointment_id =
          some demoId) :=
  ⟨by decide,
    send_email_total_and_nonblocking okRelay "to" "subject" "body" bookingAlice
      demoId 0 [] demoId okRelay failRelay (by decide)⟩

/-! ## Listing order (C6) -/

/-- The order the dashboard listing must satisfy: strictly smaller
priority rank first (High 0, Medium 1, Low 2, unrecognized 3), and
inside one rank most-recent-first. -/
def listingOrder (a b : Appointment) : Prop :=
  rankOf a.priority < rankOf b.priority ∨
    (rankOf a.priority = rankOf b.priority ∧ b.created_at ≤ a.created_at)

theorem listingOrder_rank_le {a b : Appointment} (h : listingOrder a b) :
    rankOf a.priority ≤ rankOf b.priority :=
  h.elim le_of_lt (fun h' => h'.1.le)

theorem listingOrder_of {a c : Appointment}
    (hr : rankOf a.priority ≤ rankOf c.priority)
    (hc : c.created_at ≤ a.created_at) : listingOrder a c :=
  hr.lt_or_eq.imp id (fun he => ⟨he, hc⟩)

theorem insertSorted_perm (le : Appointment → Appointment → Bool)
    (a : Appointment) (l : List Appointment) :
    List.Perm (insertSorted le a l) (a :: l) := by
  induction l with
  | nil => exact List.Perm.refl _
  | cons b t ih =>
    by_cases h : le a b = true
    · simp [insertSorted, h]
    · simp only [insertSorted, h, if_false, Bool.false_eq_true]
      exact (ih.cons b).trans (List.Perm.swap a b t)

theorem insertionSort_perm (le : Appointment → Appointment → Bool)
    (l : List Appointment) : List.Perm (insertionSort le l) l := by
  induction l with
  | nil => exact List.Perm.refl _
  | cons a t ih =>
    exact (insertSorted_perm le a (insertionSort le t)).trans (ih.cons a)

theorem mem_insertSorted {le : Appointment → Appointment → Bool}
    {a b : Appointment} {l : List Appointment} :
    b ∈ insertSorted le a l ↔ b = a ∨ b ∈ l := by
  rw [(insertSorted_perm le a l).mem_iff]
  exact List.mem_cons

theorem insertSorted_pairwise (le : Appointment → Appointment → Bool)
    (htot : ∀ a b, le a b = true ∨ le b a = true)
    (htrans : ∀ a b c, le a b = true → le b c = true → le a c = true)
    (a : Appointment) (l : List Appointment)
    (hl : l.Pairwise fun x y => le x y = true) :
    (insertSorted le a l).Pairwise fun x y => le x y = true := by
  induction l with
  | nil => simp [insertSorted]
  | cons b t ih =>
    cases hl with
    | cons hb ht =>
      by_cases h : le a b = true
      · simp only [insertSorted, h, if_true]
        refine List.Pairwise.cons ?_ (List.Pairwise.cons hb ht)
        intro c hc
        rcases List.mem_cons.mp hc with rfl | hc'
        · exact h
        · exact htrans a b c h (hb c hc')
      · simp only [insertSorted, h, if_false, Bool.false_eq_true]
        refine List.Pairwise.cons ?_ (ih ht)
        intro c hc
        rcases mem_insertSorted.mp hc with rfl | hc'
        · exact (htot c b).resolve_left h
        · exact hb c hc'

theorem insertionSort_pairwise (le : Appointment → Appointment → Bool)
    (htot : ∀ a b, le a b = true ∨ le b a = true)
    (htrans : ∀ a b c, le a b = true → le b c = true → le a c = true)
    (l : List Appointment) :
    (insertionSort le l).Pairwise fun x y => le x y = true := by
  induction l with
  | nil => simp [insertionSort]
  | cons a t ih => exact insertSorted_pairwise le htot htrans a _ ih

theorem insertionSort_created (store : Store) :
    (insertionSort createdDesc store).Pairwise
      fun a b => b.created_at ≤ a.created_at := by
  have h := insertionSort_pairwise createdDesc
    (fun a b => by simp only [createdDesc, decide_eq_true_eq]; omega)
    (fun a b c hab hbc => by
      simp only [createdDesc, decide_eq_true_eq] at hab hbc ⊢; omega)
    store
  exact h.imp (fun hab => by
    simpa only [createdDesc, decide_eq_true_eq] using hab)

theorem insertSorted_rank_stable (a : Appointment) (s : List Appointment)
    (hs : s.Pairwise listingOrder)
    (ha : ∀ c ∈ s, c.created_at ≤ a.created_at) :
    (insertSorted rankLe a s).Pairwise listingOrder := by
  induction s with
  | nil => simp [insertSorted, listingOrder]
  | cons b t ih =>
    cases hs with
    | cons hb ht =>
      by_cases h : rankLe a b = true
      · simp only [insertSorted, h, if_true]
        refine List.Pairwise.cons ?_ (List.Pairwise.cons hb ht)
        intro c hc
        have hrank_ab : rankOf a.priority ≤ rankOf b.priority := by
          simpa only [rankLe, decide_eq_true_eq] using h
        have hrank : rankOf a.priority ≤ rankOf c.priority := by
          rcases List.mem_cons.mp hc with rfl | hc'
          · exact hrank_ab
          · exact hrank_ab.trans (listingOrder_rank_le (hb c hc'))
        exact listingOrder_of hrank (ha c hc)
      · simp only [insertSorted, h, if_false, Bool.false_eq_true]
        refine List.Pairwise.cons ?_
          (ih ht (fun c hc => ha c (List.mem_cons_of_mem b hc)))
        intro c hc
        rcases mem_insertSorted.mp hc with rfl | hc'
        · refine Or.inl (not_le.mp ?_)
          simpa only [rankLe, decide_eq_true_eq] using h
        · exact hb c hc'

theorem insertionSort_rank_stable (l : List Appointment)
    (hl : l.Pairwise fun x y => y.created_at ≤ x.created_at) :
    (insertionSort rankLe l).Pairwise listingOrder := by
  induction l with
  | nil => simp [insertionSort]
  | cons a t ih =>
    cases hl with
    | cons hhead htail =>
      exact insertSorted_rank_stable a _ (ih htail)
        (fun c hc => hhead c ((insertionSort_perm rankLe t).subset hc))

/-- C6: the listing returns all appointments (a permutation of the
store), ordered by priority rank ascending — High before Medium before
Low, unrecognized priorities last — and, within one rank, by
`created_at` descending: the stable priority sort preserves the prior
most-recent-first order. -/
theorem get_appointments_order (store : Store) :
    List.Perm (get_appointments store) store ∧
      (get_appointments store).Pairwise listingOrder :=
  ⟨(insertionSort_perm rankLe _).trans (insertionSort_perm createdDesc store),
    insertionSort_rank_stable _ (insertionSort_created store)⟩

/-! ## Meeting-link invariant (C7) -/

/-- C7 as stated is false: after booking, approving and then rejecting
the same appointment — all steps the system allows — the record has
status "rejected" while its meeting link is still non-null, because
the reject update never clears `google_meet_link`. -/
theorem meeting_link_iff_approved_counterexample :
    ¬ (∀ s : Store, Reachable s → ∀ apt ∈ s,
        (apt.google_meet_link ≠ none ↔ apt.status = "approved")) := by
  intro hclaim
  have h1 : Reachable storeBooked :=
    Reachable.step Reachable.nil (Step.book [] bookingAlice demoId 0 okRelay)
  have h2 : Reachable storeApproved :=
    Reachable.step h1 (Step.approve storeBooked demoId 5 okRelay)
  have h3 : Reachable storeApprovedRejected :=
    Reachable.step h2 (Step.reject storeApproved demoId 7 okRelay)
  have hmem : aptApprovedRejected ∈ storeApprovedRejected := by decide
  have hiff := hclaim storeApprovedRejected h3 aptApprovedRejected hmem
  exact absurd (hiff.mp (by decide)) (by decide)

/-- C7 amended: in every reachable store state, an approved record has
a non-null meeting link and a pending record has a null one; a
rejected record may keep a non-null link when it was approved before
being rejected, since the reject update leaves `google_meet_link`
untouched. -/
theorem meeting_link_invariant : ∀ s : Store, Reachable s → ∀ apt ∈ s,
    (apt.status = "approved" → apt.google_meet_link ≠ none) ∧
      (apt.status = "pending" → apt.google_meet_link = none) :=
  reachable_link_invariant

theorem meeting_link_invariant_witness :
    Reachable storeApprovedRejected ∧
      ∀ apt ∈ storeApprovedRejected,
        (apt.status = "approved" → apt.google_meet_link ≠ none) ∧
          (apt.status = "pending" → apt.google_meet_link = none) :=
  have h3 : Reachable storeApprovedRejected :=
    Reachable.step
      (Reachable.step
        (Reachable.step Reachable.nil (Step.book [] bookingAlice demoId 0 okRelay))
        (Step.approve storeBooked demoId 5 okRelay))
      (Step.reject storeApproved demoId 7 okRelay)
  ⟨h3, meeting_link_invariant storeApprovedRejected h3⟩

/-! ## Status transitions (C8) -/

/-- C8 as stated is false: approving an already-rejected appointment —
a sequence the system allows, since the approve update filters only on
the identifier, not on the current status — performs the transition
rejected → approved. -/
theorem only_pending_transitions_counterexample :
    ¬ (∀ (s s' : Store), Step s s' →
        ∀ (id : String) (apt apt' : Appointment), find_one s id = some apt →
          find_one s' id = some apt' → apt.status ≠ apt'.status →
          apt.status = "pending") := by
  intro hclaim
  have h := hclaim storeRejected storeReApproved
    (Step.approve storeRejected demoId 9 okRelay) demoId aptRejected aptReApproved
    (by decide) (by decide) (by decide)
  exact absurd h (by decide)

/-- C8 amended: over every step of the system, a record whose status
changes is set to "approved" (by Approve) or to "rejected" (by
Reject), whatever its previous status; new records are created with
status "pending", so besides pending → approved and pending → rejected
the transitions approved → rejected, rejected → approved and
re-applications are also possible. -/
theorem status_transition_targets : ∀ (s s' : Store), Step s s' →
    ∀ (id : String) (apt apt' : Appointment), find_one s id = some apt →
      find_one s' id = some apt' → apt.status ≠ apt'.status →
      apt'.status = "approved" ∨ apt'.status = "rejected" := by
  intro s s' hstep id apt apt' hfind hfind' hne
  cases hstep with
  | book data newId now relay =>
    cases hv : allFieldsPresent data with
    | true =>
      rw [book_success_store_eq data newId now _ _ hv] at hfind'
      rw [find_one_append_of_some hfind _] at hfind'
      exact absurd (congrArg Appointment.status (Option.some.inj hfind')) hne
    | false =>
      rw [book_missing_store_eq data newId now _ _ hv] at hfind'
      rw [hfind] at hfind'
      exact absurd (congrArg Appointment.status (Option.some.inj hfind')) hne
  | approve tid now relay =>
    rw [approve_appointment_store] at hfind'
    by_cases hid : tid = id
    · subst hid
      rw [find_one_update_self s tid _
        (approveSet_id ("https://meet.google.com/" ++ tid.take 10) now), hfind] at hfind'
      rw [← Option.some.inj hfind']
      exact Or.inl rfl
    · rw [find_one_update_other s tid id hid _
        (approveSet_id ("https://meet.google.com/" ++ tid.take 10) now), hfind] at hfind'
      exact absurd (congrArg Appointment.status (Option.some.inj hfind')) hne
  | reject tid now relay =>
    rw [reject_appointment_store] at hfind'
    by_cases hid : tid = id
    · subst hid
      rw [find_one_update_self s tid _ (rejectSet_id now), hfind] at hfind'
      rw [← Option.some.inj hfind']
      exact Or.inr rfl
    · rw [find_one_update_other s tid id hid _ (rejectSet_id now), hfind] at hfind'
      exact absurd (congrArg Appointment.status (Option.some.inj hfind')) hne

theorem status_transition_targets_witness :
    find_one storeBooked demoId = some aptPending ∧
      find_one storeApproved demoId = some aptApproved ∧
      aptPending.status ≠ aptApproved.status ∧
      (aptApproved.status = "approved" ∨ aptApproved.status = "rejected") :=
  ⟨by decide, by decide, by decide,
    status_transition_targets storeBooked storeApproved
      (Step.approve storeBooked demoId 5 okRelay) demoId aptPending aptApproved
      (by decide) (by decide) (by decide)⟩
